import Mathlib

/-!
Verification of the toy payments engine: a shallow embedding of the ledger
state machine (accounts, account index, transaction history, transaction
index, and the five transition handlers), together with the ingestion-time
amount truncation, and theorems about the claims of the specification.

Rust `f64` amounts are modelled as exact rationals (`Rat`); `u16`/`u32`
identifiers are modelled as `Nat` (they are only used as lookup keys).
`HashMap` is modelled as an association list with `List.lookup`, where
insertion prepends (later bindings shadow earlier ones, matching
`HashMap::insert` observationally through `get`).  Rust's in-place `&mut`
mutation is modelled by explicit state passing: a handler that returns
`Err(e)` is embedded as `.err s e` where `s` is the state at the moment of
the `return` statement, so that the state carried by the error records
exactly which mutations (if any) happened before the rejection.  A Rust
panic (out-of-bounds index or the defensive non-pure match arm) is embedded
as the `.panicked` result.
-/

/-- Money: the Rust `f64` amount, modelled as an exact rational. -/
abbrev Money := Rat

/-- `src/account.rs`: per-client balance state. -/
structure Account where
  id : Nat
  available : Money
  held : Money
  frozen : Bool
deriving DecidableEq

/-- `Account::get_total`: `total` is derived, never stored. -/
def Account.get_total (a : Account) : Money :=
  a.available + a.held

/-- `src/transaction.rs`: a transaction which adds or removes an amount. -/
structure PureTxn where
  txn_id : Nat
  acnt_id : Nat
  amount : Money
  disputed : Bool
deriving DecidableEq

/-- `src/transaction.rs`: a transaction which references another transaction. -/
structure RefTxn where
  ref_id : Nat
  acnt_id : Nat
deriving DecidableEq

/-- `src/transaction.rs`: the closed variant set of transactions. -/
inductive Transaction where
  | Deposit (p : PureTxn)
  | Withdrawal (p : PureTxn)
  | Dispute (r : RefTxn)
  | Resolve (r : RefTxn)
  | Chargeback (r : RefTxn)
deriving DecidableEq

/-- Spec-side helper: the pure payload of a deposit or withdrawal, if any. -/
def Transaction.pureTxn? : Transaction → Option PureTxn
  | .Deposit p => some p
  | .Withdrawal p => some p
  | _ => none

/-- Spec-side helper: rewrite the `disputed` flag of a pure entry in place,
keeping the variant (the shape of the in-place mutation
`disputed_txn.disputed = b` in the Rust handlers). -/
def Transaction.setDisputed : Transaction → Bool → Transaction
  | .Deposit p, b => .Deposit { p with disputed := b }
  | .Withdrawal p, b => .Withdrawal { p with disputed := b }
  | t, _ => t

/-- Spec-side helper: the account a transaction names. -/
def Transaction.acntId : Transaction → Nat
  | .Deposit p => p.acnt_id
  | .Withdrawal p => p.acnt_id
  | .Dispute r => r.acnt_id
  | .Resolve r => r.acnt_id
  | .Chargeback r => r.acnt_id

/-- Spec-side helper: deposits and withdrawals are the pure transactions. -/
def Transaction.isPure : Transaction → Bool
  | .Deposit _ => true
  | .Withdrawal _ => true
  | _ => false

/-- `src/payments_engine/transactions.rs`: the business error taxonomy. -/
inductive TxnErrors where
  | AccountDoesNotExist
  | AccountFrozen
  | AccountLacksFunds
  | TxnAlreadyDisputed
  | TxnIdAlreadyExists
  | TxnIdDoesNotExist
  | TxnMustBeDisputed
deriving DecidableEq

/-- `src/payments_engine.rs`: the ledger state owned by the engine. -/
structure PaymentsEngine where
  accounts : List Account
  acnt_map : List (Nat × Nat)
  processed_txns : List Transaction
  txn_map : List (Nat × Nat)
deriving DecidableEq

/-- `PaymentsEngine::new`: the empty ledger state. -/
def PaymentsEngine.new : PaymentsEngine :=
  { accounts := [], acnt_map := [], processed_txns := [], txn_map := [] }

/-- Result of one handler call on an explicit state: `ok` carries the state
after a successful mutation, `err` carries the state at the moment of the
error return (the Rust handlers mutate `&mut self`, so a rejection that had
already mutated would surface here as `.err s' e` with `s' ≠ s`), and
`panicked` marks a Rust panic (index out of bounds, or the defensive
non-pure match arm). -/
inductive StepResult where
  | ok (s : PaymentsEngine)
  | err (s : PaymentsEngine) (e : TxnErrors)
  | panicked
deriving DecidableEq

/-- Whether a step result is a panic. -/
def StepResult.isPanic : StepResult → Bool
  | .panicked => true
  | _ => false

/-- Result of `get_ref_txn_indicies` (`&self`, no mutation): the account
index and history index, an error, or a panic on an out-of-bounds account
index. -/
inductive RefLookup where
  | ok (acnt_indx : Nat) (txn_indx : Nat)
  | err (e : TxnErrors)
  | panicked
deriving DecidableEq

/-- `PaymentsEngine::process_deposit`.  The index recorded in `txn_map` is
the position of the pushed entry, i.e. the old history length. -/
def process_deposit (s : PaymentsEngine) (p : PureTxn) : StepResult :=
  if (s.txn_map.lookup p.txn_id).isSome then
    .err s .TxnIdAlreadyExists
  else
    match s.acnt_map.lookup p.acnt_id with
    | some acnt_indx =>
      match s.accounts[acnt_indx]? with
      | none => .panicked
      | some acnt =>
        if acnt.frozen then
          .err s .AccountFrozen
        else
          .ok { s with
            accounts := s.accounts.set acnt_indx
              { acnt with available := acnt.available + p.amount },
            processed_txns := s.processed_txns ++ [Transaction.Deposit p],
            txn_map := (p.txn_id, s.processed_txns.length) :: s.txn_map }
    | none =>
      .ok { s with
        accounts := s.accounts ++
          [{ id := p.acnt_id, available := p.amount, held := 0, frozen := false }],
        acnt_map := (p.acnt_id, s.accounts.length) :: s.acnt_map,
        processed_txns := s.processed_txns ++ [Transaction.Deposit p],
        txn_map := (p.txn_id, s.processed_txns.length) :: s.txn_map }

/-- `PaymentsEngine::process_withdrawl`.  The insufficient-funds check comes
before the frozen check, mirroring the source order. -/
def process_withdrawl (s : PaymentsEngine) (p : PureTxn) : StepResult :=
  if (s.txn_map.lookup p.txn_id).isSome then
    .err s .TxnIdAlreadyExists
  else
    match s.acnt_map.lookup p.acnt_id with
    | some ii =>
      match s.accounts[ii]? with
      | none => .panicked
      | some acnt =>
        if acnt.available < p.amount then
          .err s .AccountLacksFunds
        else if acnt.frozen then
          .err s .AccountFrozen
        else
          .ok { s with
            accounts := s.accounts.set ii
              { acnt with available := acnt.available - p.amount },
            processed_txns := s.processed_txns ++ [Transaction.Withdrawal p],
            txn_map := (p.txn_id, s.processed_txns.length) :: s.txn_map }
    | none => .err s .AccountDoesNotExist

/-- `PaymentsEngine::get_ref_txn_indicies`: shared lookup step of the three
reference handlers. -/
def get_ref_txn_indicies (s : PaymentsEngine) (ref_txn : RefTxn) : RefLookup :=
  match s.acnt_map.lookup ref_txn.acnt_id with
  | none => .err .AccountDoesNotExist
  | some acnt_indx =>
    match s.accounts[acnt_indx]? with
    | none => .panicked
    | some acnt =>
      if acnt.frozen then
        .err .AccountFrozen
      else
        match s.txn_map.lookup ref_txn.ref_id with
        | none => .err .TxnIdDoesNotExist
        | some txn_indx => .ok acnt_indx txn_indx

/-- `PaymentsEngine::process_dispute`. -/
def process_dispute (s : PaymentsEngine) (ref_txn : RefTxn) : StepResult :=
  match get_ref_txn_indicies s ref_txn with
  | .err e => .err s e
  | .panicked => .panicked
  | .ok acnt_indx txn_indx =>
    match s.processed_txns[txn_indx]? with
    | some (Transaction.Deposit disputed_txn) =>
      if disputed_txn.disputed then
        .err s .TxnAlreadyDisputed
      else
        match s.accounts[acnt_indx]? with
        | none => .panicked
        | some acnt =>
          .ok { s with
            accounts := s.accounts.set acnt_indx
              { acnt with available := acnt.available - disputed_txn.amount,
                          held := acnt.held + disputed_txn.amount },
            processed_txns :=
              (s.processed_txns.set txn_indx
                (Transaction.Deposit { disputed_txn with disputed := true })) ++
              [Transaction.Dispute ref_txn] }
    | some (Transaction.Withdrawal disputed_txn) =>
      if disputed_txn.disputed then
        .err s .TxnAlreadyDisputed
      else
        match s.accounts[acnt_indx]? with
        | none => .panicked
        | some acnt =>
          .ok { s with
            accounts := s.accounts.set acnt_indx
              { acnt with available := acnt.available - disputed_txn.amount,
                          held := acnt.held + disputed_txn.amount },
            processed_txns :=
              (s.processed_txns.set txn_indx
                (Transaction.Withdrawal { disputed_txn with disputed := true })) ++
              [Transaction.Dispute ref_txn] }
    | _ => .panicked

/-- `PaymentsEngine::process_resolve`. -/
def process_resolve (s : PaymentsEngine) (ref_txn : RefTxn) : StepResult :=
  match get_ref_txn_indicies s ref_txn with
  | .err e => .err s e
  | .panicked => .panicked
  | .ok acnt_indx txn_indx =>
    match s.processed_txns[txn_indx]? with
    | some (Transaction.Deposit disputed_txn) =>
      if !disputed_txn.disputed then
        .err s .TxnMustBeDisputed
      else
        match s.accounts[acnt_indx]? with
        | none => .panicked
        | some acnt =>
          .ok { s with
            accounts := s.accounts.set acnt_indx
              { acnt with held := acnt.held - disputed_txn.amount,
                          available := acnt.available + disputed_txn.amount },
            processed_txns :=
              (s.processed_txns.set txn_indx
                (Transaction.Deposit { disputed_txn with disputed := false })) ++
              [Transaction.Resolve ref_txn] }
    | some (Transaction.Withdrawal disputed_txn) =>
      if !disputed_txn.disputed then
        .err s .TxnMustBeDisputed
      else
        match s.accounts[acnt_indx]? with
        | none => .panicked
        | some acnt =>
          .ok { s with
            accounts := s.accounts.set acnt_indx
              { acnt with held := acnt.held - disputed_txn.amount,
                          available := acnt.available + disputed_txn.amount },
            processed_txns :=
              (s.processed_txns.set txn_indx
                (Transaction.Withdrawal { disputed_txn with disputed := false })) ++
              [Transaction.Resolve ref_txn] }
    | _ => .panicked

/-- `PaymentsEngine::process_chargeback`: drains `held`, freezes the account,
clears the `disputed` flag; `available` is left untouched. -/
def process_chargeback (s : PaymentsEngine) (ref_txn : RefTxn) : StepResult :=
  match get_ref_txn_indicies s ref_txn with
  | .err e => .err s e
  | .panicked => .panicked
  | .ok acnt_indx txn_indx =>
    match s.processed_txns[txn_indx]? with
    | some (Transaction.Deposit disputed_txn) =>
      if !disputed_txn.disputed then
        .err s .TxnMustBeDisputed
      else
        match s.accounts[acnt_indx]? with
        | none => .panicked
        | some acnt =>
          .ok { s with
            accounts := s.accounts.set acnt_indx
              { acnt with held := acnt.held - disputed_txn.amount, frozen := true },
            processed_txns :=
              (s.processed_txns.set txn_indx
                (Transaction.Deposit { disputed_txn with disputed := false })) ++
              [Transaction.Chargeback ref_txn] }
    | some (Transaction.Withdrawal disputed_txn) =>
      if !disputed_txn.disputed then
        .err s .TxnMustBeDisputed
      else
        match s.accounts[acnt_indx]? with
        | none => .panicked
        | some acnt =>
          .ok { s with
            accounts := s.accounts.set acnt_indx
              { acnt with held := acnt.held - disputed_txn.amount, frozen := true },
            processed_txns :=
              (s.processed_txns.set txn_indx
                (Transaction.Withdrawal { disputed_txn with disputed := false })) ++
              [Transaction.Chargeback ref_txn] }
    | _ => .panicked

/-- `PaymentsEngine::process_txn`: single dispatch point over the variants. -/
def process_txn (s : PaymentsEngine) (txn : Transaction) : StepResult :=
  match txn with
  | .Deposit p_txn => process_deposit s p_txn
  | .Withdrawal p_txn => process_withdrawl s p_txn
  | .Dispute ref_txn => process_dispute s ref_txn
  | .Resolve ref_txn => process_resolve s ref_txn
  | .Chargeback ref_txn => process_chargeback s ref_txn

/-- The run loop (`stream_process_csv` / `_batch_execute`): each record is
dispatched in order; business errors drop the record and continue with the
unchanged state.  A panic aborts the run (no further records are applied). -/
def run (s : PaymentsEngine) : List Transaction → PaymentsEngine
  | [] => s
  | t :: ts =>
    match process_txn s t with
    | .ok s' => run s' ts
    | .err s' _ => run s' ts
    | .panicked => s

/-- Whether the engine accepts every transaction of the list in order. -/
def acceptsAll (s : PaymentsEngine) : List Transaction → Bool
  | [] => true
  | t :: ts =>
    match process_txn s t with
    | .ok s' => acceptsAll s' ts
    | _ => false

/-- Sum of the amounts of the deposits of a list naming account `c`. -/
def depositSum (c : Nat) : List Transaction → Money
  | [] => 0
  | .Deposit p :: ts => (if p.acnt_id = c then p.amount else 0) + depositSum c ts
  | _ :: ts => depositSum c ts

/-- Sum of the amounts of the withdrawals of a list naming account `c`. -/
def withdrawalSum (c : Nat) : List Transaction → Money
  | [] => 0
  | .Withdrawal p :: ts => (if p.acnt_id = c then p.amount else 0) + withdrawalSum c ts
  | _ :: ts => withdrawalSum c ts

/-- The available balance the ledger records for account id `c` (0 when the
account does not exist). -/
def availOf (s : PaymentsEngine) (c : Nat) : Money :=
  match s.acnt_map.lookup c with
  | some ai =>
    match s.accounts[ai]? with
    | some a => a.available
    | none => 0
  | none => 0

/-- The held balance the ledger records for account id `c` (0 when the
account does not exist). -/
def heldOf (s : PaymentsEngine) (c : Nat) : Money :=
  match s.acnt_map.lookup c with
  | some ai =>
    match s.accounts[ai]? with
    | some a => a.held
    | none => 0
  | none => 0

/-- `src/constants.rs` is not part of the sources provided.  Modelled from
the spec: the truncation precision is a fixed global constant of 4 digits. -/
def PRECISION : Nat := 4

/-- `src/cli_io.rs::get_specified_precision`: floor after scaling by
`10 ^ decimal_precision`.  The Rust exponent is a (non-negative in all
uses) `i32`; it is modelled as `Nat`. -/
def get_specified_precision (val : Money) (decimal_precision : Nat) : Money :=
  ⌊val * (10 : Money) ^ decimal_precision⌋ / (10 : Money) ^ decimal_precision

/-- `src/cli_io.rs`: the conversion error taxonomy of the ingestion adapter. -/
inductive InputTxnErr where
  | MissingAmount
  | UnsupportedType
  | ShouldHaveNoAmount
deriving DecidableEq

/-- `src/cli_io.rs::InTxn`: a raw input record. -/
structure InTxn where
  txn_type : String
  acnt_id : Nat
  txn_id : Nat
  amount : Option Money

/-- `InTxn::to_transaction`: validate a raw record into a transaction,
truncating the amount of a deposit or withdrawal to `PRECISION` digits. -/
def InTxn.to_transaction (t : InTxn) : Except InputTxnErr Transaction :=
  if t.txn_type = "deposit" ∨ t.txn_type = "withdrawal" then
    match t.amount with
    | none => .error .MissingAmount
    | some v =>
      if t.txn_type = "deposit" then
        .ok (.Deposit { txn_id := t.txn_id, acnt_id := t.acnt_id,
                        amount := get_specified_precision v PRECISION,
                        disputed := false })
      else
        .ok (.Withdrawal { txn_id := t.txn_id, acnt_id := t.acnt_id,
                           amount := get_specified_precision v PRECISION,
                           disputed := false })
  else if t.txn_type = "dispute" ∨ t.txn_type = "resolve" ∨ t.txn_type = "chargeback" then
    if t.amount.isSome then
      .error .ShouldHaveNoAmount
    else
      if t.txn_type = "dispute" then
        .ok (.Dispute { ref_id := t.txn_id, acnt_id := t.acnt_id })
      else if t.txn_type = "resolve" then
        .ok (.Resolve { ref_id := t.txn_id, acnt_id := t.acnt_id })
      else
        .ok (.Chargeback { ref_id := t.txn_id, acnt_id := t.acnt_id })
  else
    .error .UnsupportedType

/-! ## Basic helper lemmas -/

theorem lookup_cons' (a k v : Nat) (l : List (Nat × Nat)) :
    List.lookup a ((k, v) :: l) = if a = k then some v else List.lookup a l := by
  rw [List.lookup_cons]
  by_cases h : a = k
  · simp [h]
  · have hb : (a == k) = false := by simpa using h
    simp [hb, h]

theorem getElem?_some_lt {α : Type} {l : List α} {i : Nat} {a : α}
    (h : l[i]? = some a) : i < l.length := by
  by_contra hn
  rw [List.getElem?_eq_none (Nat.le_of_not_lt hn)] at h
  exact Option.noConfusion h

/-- Any error return of any handler leaves the ledger state exactly as it
was: every `.err` constructed in the five handlers carries the unmutated
input state. -/
theorem process_txn_err_state (s : PaymentsEngine) (t : Transaction)
    (s' : PaymentsEngine) (e : TxnErrors) (h : process_txn s t = .err s' e) :
    s' = s := by
  cases t <;>
    simp only [process_txn, process_deposit, process_withdrawl, process_dispute,
      process_resolve, process_chargeback] at h <;>
    repeat' split at h
  all_goals
    first
      | exact StepResult.noConfusion h
      | (injection h with h1 h2; exact h1.symm)

/-! ## C1 -/

/-- C1: atomicity of rejection.  If `process_txn` returns an error, the
ledger state afterwards (the state carried by the error) is exactly the
state before the call, repeated application of the same rejected
transaction leaves the state unchanged no matter how often it is retried,
and it keeps producing the very same error. -/
theorem c1_rejection_is_atomic (s : PaymentsEngine) (t : Transaction)
    (s' : PaymentsEngine) (e : TxnErrors) (h : process_txn s t = .err s' e) :
    s' = s ∧ (∀ n, run s (List.replicate n t) = s) ∧ process_txn s' t = .err s' e := by
  have hs : s' = s := process_txn_err_state s t s' e h
  subst hs
  refine ⟨rfl, ?_, h⟩
  intro n
  induction n with
  | zero => rfl
  | succ n ih => simp only [List.replicate_succ, run, h, ih]

/-- C1 witness: a withdrawal from the empty ledger is rejected with
`AccountDoesNotExist` and keeps the state empty however often it is
retried. -/
theorem c1_witness :
    PaymentsEngine.new = PaymentsEngine.new ∧
    run PaymentsEngine.new
      (List.replicate 3
        (Transaction.Withdrawal { txn_id := 1, acnt_id := 1, amount := 5, disputed := false }))
      = PaymentsEngine.new ∧
    process_txn PaymentsEngine.new
      (Transaction.Withdrawal { txn_id := 1, acnt_id := 1, amount := 5, disputed := false })
      = .err PaymentsEngine.new TxnErrors.AccountDoesNotExist := by
  have h := c1_rejection_is_atomic PaymentsEngine.new
    (Transaction.Withdrawal { txn_id := 1, acnt_id := 1, amount := 5, disputed := false })
    PaymentsEngine.new TxnErrors.AccountDoesNotExist rfl
  exact ⟨h.1, h.2.1 3, h.2.2⟩

/-! ## C3 -/

/-- C3: withdrawal check ordering.  For a fresh transaction id, if the
account's available balance is below the requested amount the withdrawal
fails with `AccountLacksFunds` even when the account is also frozen (the
insufficient-funds check precedes the frozen check); and a withdrawal only
ever succeeds when the amount is at most the available balance and the
account is not frozen. -/
theorem c3_withdrawal_check_order :
    (∀ (s : PaymentsEngine) (p : PureTxn) (ai : Nat) (acnt : Account),
      s.txn_map.lookup p.txn_id = none →
      s.acnt_map.lookup p.acnt_id = some ai →
      s.accounts[ai]? = some acnt →
      acnt.available < p.amount →
      process_withdrawl s p = .err s TxnErrors.AccountLacksFunds) ∧
    (∀ (s : PaymentsEngine) (p : PureTxn) (s' : PaymentsEngine),
      process_withdrawl s p = .ok s' →
      ∃ ai acnt, s.acnt_map.lookup p.acnt_id = some ai ∧ s.accounts[ai]? = some acnt ∧
        p.amount ≤ acnt.available ∧ acnt.frozen = false) := by
  constructor
  · intro s p ai acnt hfree hmap hacct hlt
    simp only [process_withdrawl, hfree, Option.isSome_none, Bool.false_eq_true, if_false,
      hmap, hacct, hlt, if_true]
  · intro s p s' h
    simp only [process_withdrawl] at h
    split at h
    · exact StepResult.noConfusion h
    · split at h
      · rename_i ii heq
        split at h
        · exact StepResult.noConfusion h
        · rename_i acnt hacct
          split at h
          · exact StepResult.noConfusion h
          · split at h
            · exact StepResult.noConfusion h
            · rename_i hlt hfr
              exact ⟨ii, acnt, heq, hacct, le_of_not_lt hlt, by simpa using hfr⟩
      · exact StepResult.noConfusion h

/-- C3 witness: an account that is frozen and lacks funds rejects a
withdrawal with `AccountLacksFunds`, not `AccountFrozen`. -/
theorem c3_witness :
    process_withdrawl
      { accounts := [{ id := 1, available := 3, held := 0, frozen := true }],
        acnt_map := [(1, 0)], processed_txns := [], txn_map := [] }
      { txn_id := 7, acnt_id := 1, amount := 5, disputed := false }
      = .err
          { accounts := [{ id := 1, available := 3, held := 0, frozen := true }],
            acnt_map := [(1, 0)], processed_txns := [], txn_map := [] }
          TxnErrors.AccountLacksFunds :=
  c3_withdrawal_check_order.1 _ _ 0 { id := 1, available := 3, held := 0, frozen := true }
    rfl rfl rfl (by decide)

/-! ## Success characterizations of the reference handlers -/

theorem pureTxn?_setDisputed (tx : Transaction) (d : PureTxn) (b : Bool)
    (h : tx.pureTxn? = some d) :
    (tx.setDisputed b).pureTxn? = some { d with disputed := b } := by
  cases tx <;> simp_all [Transaction.pureTxn?, Transaction.setDisputed]

theorem setDisputed_setDisputed (tx : Transaction) (b b' : Bool) :
    (tx.setDisputed b).setDisputed b' = tx.setDisputed b' := by
  cases tx <;> simp [Transaction.setDisputed]

theorem process_dispute_build
    (s : PaymentsEngine) (r : RefTxn) (ai ti : Nat) (acnt : Account)
    (tx : Transaction) (d : PureTxn)
    (hmap : s.acnt_map.lookup r.acnt_id = some ai)
    (hacct : s.accounts[ai]? = some acnt)
    (hfr : acnt.frozen = false)
    (htm : s.txn_map.lookup r.ref_id = some ti)
    (htx : s.processed_txns[ti]? = some tx)
    (hp : tx.pureTxn? = some d)
    (hnd : d.disputed = false) :
    process_dispute s r = .ok { s with
      accounts := s.accounts.set ai
        { acnt with available := acnt.available - d.amount, held := acnt.held + d.amount },
      processed_txns := (s.processed_txns.set ti (tx.setDisputed true)) ++
        [Transaction.Dispute r] } := by
  cases tx with
  | Deposit p =>
    simp only [Transaction.pureTxn?, Option.some.injEq] at hp
    subst hp
    simp [process_dispute, get_ref_txn_indicies, hmap, hacct, hfr, htm, htx, hnd,
      Transaction.setDisputed]
  | Withdrawal p =>
    simp only [Transaction.pureTxn?, Option.some.injEq] at hp
    subst hp
    simp [process_dispute, get_ref_txn_indicies, hmap, hacct, hfr, htm, htx, hnd,
      Transaction.setDisputed]
  | Dispute q => simp [Transaction.pureTxn?] at hp
  | Resolve q => simp [Transaction.pureTxn?] at hp
  | Chargeback q => simp [Transaction.pureTxn?] at hp

theorem process_resolve_build
    (s : PaymentsEngine) (r : RefTxn) (ai ti : Nat) (acnt : Account)
    (tx : Transaction) (d : PureTxn)
    (hmap : s.acnt_map.lookup r.acnt_id = some ai)
    (hacct : s.accounts[ai]? = some acnt)
    (hfr : acnt.frozen = false)
    (htm : s.txn_map.lookup r.ref_id = some ti)
    (htx : s.processed_txns[ti]? = some tx)
    (hp : tx.pureTxn? = some d)
    (hd : d.disputed = true) :
    process_resolve s r = .ok { s with
      accounts := s.accounts.set ai
        { acnt with held := acnt.held - d.amount, available := acnt.available + d.amount },
      processed_txns := (s.processed_txns.set ti (tx.setDisputed false)) ++
        [Transaction.Resolve r] } := by
  cases tx with
  | Deposit p =>
    simp only [Transaction.pureTxn?, Option.some.injEq] at hp
    subst hp
    simp [process_resolve, get_ref_txn_indicies, hmap, hacct, hfr, htm, htx, hd,
      Transaction.setDisputed]
  | Withdrawal p =>
    simp only [Transaction.pureTxn?, Option.some.injEq] at hp
    subst hp
    simp [process_resolve, get_ref_txn_indicies, hmap, hacct, hfr, htm, htx, hd,
      Transaction.setDisputed]
  | Dispute q => simp [Transaction.pureTxn?] at hp
  | Resolve q => simp [Transaction.pureTxn?] at hp
  | Chargeback q => simp [Transaction.pureTxn?] at hp

theorem process_chargeback_build
    (s : PaymentsEngine) (r : RefTxn) (ai ti : Nat) (acnt : Account)
    (tx : Transaction) (d : PureTxn)
    (hmap : s.acnt_map.lookup r.acnt_id = some ai)
    (hacct : s.accounts[ai]? = some acnt)
    (hfr : acnt.frozen = false)
    (htm : s.txn_map.lookup r.ref_id = some ti)
    (htx : s.processed_txns[ti]? = some tx)
    (hp : tx.pureTxn? = some d)
    (hd : d.disputed = true) :
    process_chargeback s r = .ok { s with
      accounts := s.accounts.set ai
        { acnt with held := acnt.held - d.amount, frozen := true },
      processed_txns := (s.processed_txns.set ti (tx.setDisputed false)) ++
        [Transaction.Chargeback r] } := by
  cases tx with
  | Deposit p =>
    simp only [Transaction.pureTxn?, Option.some.injEq] at hp
    subst hp
    simp [process_chargeback, get_ref_txn_indicies, hmap, hacct, hfr, htm, htx, hd,
      Transaction.setDisputed]
  | Withdrawal p =>
    simp only [Transaction.pureTxn?, Option.some.injEq] at hp
    subst hp
    simp [process_chargeback, get_ref_txn_indicies, hmap, hacct, hfr, htm, htx, hd,
      Transaction.setDisputed]
  | Dispute q => simp [Transaction.pureTxn?] at hp
  | Resolve q => simp [Transaction.pureTxn?] at hp
  | Chargeback q => simp [Transaction.pureTxn?] at hp


/-! ## C5 -/

/-- C5: dispute/resolve exact round trip.  In any state containing an
accepted, undisputed pure transaction (indexed under `tid` at history
position `ti`) on an existing unfrozen account, a dispute referencing it
succeeds, moves exactly its amount from available to held and sets its
`disputed` flag in place; a subsequent resolve succeeds and restores
available and held to exactly their values before the dispute and clears
the flag. -/
theorem c5_dispute_resolve_round_trip
    (s : PaymentsEngine) (c tid ai ti : Nat) (acnt : Account)
    (tx : Transaction) (d : PureTxn)
    (hmap : s.acnt_map.lookup c = some ai)
    (hacct : s.accounts[ai]? = some acnt)
    (hfr : acnt.frozen = false)
    (htm : s.txn_map.lookup tid = some ti)
    (htx : s.processed_txns[ti]? = some tx)
    (hp : tx.pureTxn? = some d)
    (hnd : d.disputed = false)
    (hown : d.acnt_id = c) :
    ∃ s₁ s₂,
      process_dispute s { ref_id := tid, acnt_id := c } = .ok s₁ ∧
      s₁.accounts[ai]? = some
        { acnt with available := acnt.available - d.amount, held := acnt.held + d.amount } ∧
      s₁.processed_txns[ti]? = some (tx.setDisputed true) ∧
      process_resolve s₁ { ref_id := tid, acnt_id := c } = .ok s₂ ∧
      (∃ a₂, s₂.accounts[ai]? = some a₂ ∧
        a₂.available = acnt.available ∧ a₂.held = acnt.held ∧ a₂.frozen = acnt.frozen) ∧
      s₂.processed_txns[ti]? = some (tx.setDisputed false) := by
  have hai : ai < s.accounts.length := getElem?_some_lt hacct
  have hti : ti < s.processed_txns.length := getElem?_some_lt htx
  have h1 := process_dispute_build s { ref_id := tid, acnt_id := c } ai ti acnt tx d
    hmap hacct hfr htm htx hp hnd
  have hacct1 :
      ({ s with
        accounts := s.accounts.set ai
          { acnt with available := acnt.available - d.amount, held := acnt.held + d.amount },
        processed_txns := (s.processed_txns.set ti (tx.setDisputed true)) ++
          [Transaction.Dispute { ref_id := tid, acnt_id := c }] } :
        PaymentsEngine).accounts[ai]? = some
        { acnt with available := acnt.available - d.amount, held := acnt.held + d.amount } :=
    List.getElem?_set_self hai
  have htx1 :
      ({ s with
        accounts := s.accounts.set ai
          { acnt with available := acnt.available - d.amount, held := acnt.held + d.amount },
        processed_txns := (s.processed_txns.set ti (tx.setDisputed true)) ++
          [Transaction.Dispute { ref_id := tid, acnt_id := c }] } :
        PaymentsEngine).processed_txns[ti]? = some (tx.setDisputed true) := by
    show ((s.processed_txns.set ti (tx.setDisputed true)) ++
      [Transaction.Dispute { ref_id := tid, acnt_id := c }])[ti]? = some (tx.setDisputed true)
    rw [List.getElem?_append_left (by simpa using hti), List.getElem?_set_self hti]
  have h2 := process_resolve_build
    { s with
      accounts := s.accounts.set ai
        { acnt with available := acnt.available - d.amount, held := acnt.held + d.amount },
      processed_txns := (s.processed_txns.set ti (tx.setDisputed true)) ++
        [Transaction.Dispute { ref_id := tid, acnt_id := c }] }
    { ref_id := tid, acnt_id := c } ai ti
    { acnt with available := acnt.available - d.amount, held := acnt.held + d.amount }
    (tx.setDisputed true) { d with disputed := true }
    hmap hacct1 hfr htm htx1 (pureTxn?_setDisputed tx d true hp) rfl
  refine ⟨_, _, h1, hacct1, htx1, h2,
    ⟨{ id := acnt.id,
       available := acnt.available - d.amount + d.amount,
       held := acnt.held + d.amount - d.amount,
       frozen := acnt.frozen }, ?_, ?_, ?_, rfl⟩, ?_⟩
  · exact List.getElem?_set_self (by simpa using hai)
  · show acnt.available - d.amount + d.amount = acnt.available
    ring
  · show acnt.held + d.amount - d.amount = acnt.held
    ring
  · show (((s.processed_txns.set ti (tx.setDisputed true)) ++
        [Transaction.Dispute { ref_id := tid, acnt_id := c }]).set ti
        ((tx.setDisputed true).setDisputed false) ++
        [Transaction.Resolve { ref_id := tid, acnt_id := c }])[ti]? = some (tx.setDisputed false)
    have hti' : ti < ((s.processed_txns.set ti (tx.setDisputed true)) ++
        [Transaction.Dispute { ref_id := tid, acnt_id := c }]).length := by
      simp
      omega
    rw [List.getElem?_append_left (by simpa using hti'),
      List.getElem?_set_self hti', setDisputed_setDisputed]

/-- C5 witness: round trip on a concrete one-account ledger holding one
accepted deposit of 10. -/
theorem c5_witness :
    ∃ s₁ s₂,
      process_dispute
        { accounts := [{ id := 1, available := 10, held := 0, frozen := false }],
          acnt_map := [(1, 0)],
          processed_txns :=
            [Transaction.Deposit { txn_id := 1, acnt_id := 1, amount := 10, disputed := false }],
          txn_map := [(1, 0)] }
        { ref_id := 1, acnt_id := 1 } = .ok s₁ ∧
      s₁.accounts[0]? = some
        { id := 1, available := (10 : Money) - 10, held := (0 : Money) + 10, frozen := false } ∧
      s₁.processed_txns[0]? = some
        ((Transaction.Deposit
          { txn_id := 1, acnt_id := 1, amount := 10, disputed := false }).setDisputed true) ∧
      process_resolve s₁ { ref_id := 1, acnt_id := 1 } = .ok s₂ ∧
      (∃ a₂, s₂.accounts[0]? = some a₂ ∧
        a₂.available = (10 : Money) ∧ a₂.held = (0 : Money) ∧ a₂.frozen = false) ∧
      s₂.processed_txns[0]? = some
        ((Transaction.Deposit
          { txn_id := 1, acnt_id := 1, amount := 10, disputed := false }).setDisputed false) :=
  c5_dispute_resolve_round_trip
    { accounts := [{ id := 1, available := 10, held := 0, frozen := false }],
      acnt_map := [(1, 0)],
      processed_txns :=
        [Transaction.Deposit { txn_id := 1, acnt_id := 1, amount := 10, disputed := false }],
      txn_map := [(1, 0)] }
    1 1 0 0 { id := 1, available := 10, held := 0, frozen := false }
    (Transaction.Deposit { txn_id := 1, acnt_id := 1, amount := 10, disputed := false })
    { txn_id := 1, acnt_id := 1, amount := 10, disputed := false }
    rfl rfl rfl rfl rfl rfl rfl rfl

/-! ## C6 -/

/-- C6: chargeback frame effect.  Whenever the referenced indexed pure
transaction is disputed and the account named by the chargeback exists and
is unfrozen, `process_chargeback` succeeds and the resulting state is
exactly the old state with: the account's `held` decreased by the
transaction's amount and its `frozen` flag set (its `available` and `id`
fields, and all other accounts, untouched), the history entry's `disputed`
flag cleared in place, and a `Chargeback` entry appended to the history;
`acnt_map` and `txn_map` are unchanged.  The itemized conjuncts spell out
this frame. -/
theorem c6_chargeback_frame
    (s : PaymentsEngine) (r : RefTxn) (ai ti : Nat) (acnt : Account)
    (tx : Transaction) (d : PureTxn)
    (hmap : s.acnt_map.lookup r.acnt_id = some ai)
    (hacct : s.accounts[ai]? = some acnt)
    (hfr : acnt.frozen = false)
    (htm : s.txn_map.lookup r.ref_id = some ti)
    (htx : s.processed_txns[ti]? = some tx)
    (hp : tx.pureTxn? = some d)
    (hd : d.disputed = true) :
    ∃ s', process_chargeback s r = .ok s' ∧
      s' = { s with
        accounts := s.accounts.set ai
          { acnt with held := acnt.held - d.amount, frozen := true },
        processed_txns := (s.processed_txns.set ti (tx.setDisputed false)) ++
          [Transaction.Chargeback r] } ∧
      s'.accounts[ai]? = some
        { id := acnt.id, available := acnt.available,
          held := acnt.held - d.amount, frozen := true } ∧
      (∀ j, j ≠ ai → s'.accounts[j]? = s.accounts[j]?) ∧
      s'.acnt_map = s.acnt_map ∧
      s'.txn_map = s.txn_map ∧
      s'.processed_txns[ti]? = some (tx.setDisputed false) ∧
      (∀ j, j ≠ ti → j < s.processed_txns.length →
        s'.processed_txns[j]? = s.processed_txns[j]?) ∧
      s'.processed_txns[s.processed_txns.length]? =
        some (Transaction.Chargeback r) := by
  have hai : ai < s.accounts.length := getElem?_some_lt hacct
  have hti : ti < s.processed_txns.length := getElem?_some_lt htx
  refine ⟨_, process_chargeback_build s r ai ti acnt tx d hmap hacct hfr htm htx hp hd,
    rfl, ?_, ?_, rfl, rfl, ?_, ?_, ?_⟩
  · exact List.getElem?_set_self hai
  · intro j hj
    exact List.getElem?_set_ne (fun h => hj h.symm)
  · show ((s.processed_txns.set ti (tx.setDisputed false)) ++
      [Transaction.Chargeback r])[ti]? = some (tx.setDisputed false)
    rw [List.getElem?_append_left (by simpa using hti), List.getElem?_set_self hti]
  · intro j hj hjlen
    show ((s.processed_txns.set ti (tx.setDisputed false)) ++
      [Transaction.Chargeback r])[j]? = s.processed_txns[j]?
    rw [List.getElem?_append_left (by simpa using hjlen),
      List.getElem?_set_ne (fun h => hj h.symm)]
  · show ((s.processed_txns.set ti (tx.setDisputed false)) ++
      [Transaction.Chargeback r])[s.processed_txns.length]? =
      some (Transaction.Chargeback r)
    have : ((s.processed_txns.set ti (tx.setDisputed false)) ++
        [Transaction.Chargeback r])[(s.processed_txns.set ti
          (tx.setDisputed false)).length]? = some (Transaction.Chargeback r) :=
      List.getElem?_concat_length _ _
    simpa using this

/-- C6 witness: chargeback of a disputed deposit of 10 on a concrete
one-account ledger. -/
theorem c6_witness :
    ∃ s', process_chargeback
      { accounts := [{ id := 1, available := 0, held := 10, frozen := false }],
        acnt_map := [(1, 0)],
        processed_txns :=
          [Transaction.Deposit { txn_id := 1, acnt_id := 1, amount := 10, disputed := true }],
        txn_map := [(1, 0)] }
      { ref_id := 1, acnt_id := 1 } = .ok s' ∧
      s' = { accounts :=
              [{ id := 1, available := 0, held := 10, frozen := false }].set 0
                { id := 1, available := 0, held := (10 : Money) - 10, frozen := true },
             acnt_map := [(1, 0)],
             processed_txns :=
              ([Transaction.Deposit
                  { txn_id := 1, acnt_id := 1, amount := 10, disputed := true }].set 0
                ((Transaction.Deposit
                  { txn_id := 1, acnt_id := 1, amount := 10, disputed := true }).setDisputed
                    false)) ++
              [Transaction.Chargeback { ref_id := 1, acnt_id := 1 }],
             txn_map := [(1, 0)] } ∧
      s'.accounts[0]? = some
        { id := 1, available := 0, held := (10 : Money) - 10, frozen := true } ∧
      (∀ j, j ≠ 0 → s'.accounts[j]? =
        ([{ id := 1, available := 0, held := 10, frozen := false }] : List Account)[j]?) ∧
      s'.acnt_map = [(1, 0)] ∧
      s'.txn_map = [(1, 0)] ∧
      s'.processed_txns[0]? = some
        ((Transaction.Deposit
          { txn_id := 1, acnt_id := 1, amount := 10, disputed := true }).setDisputed false) ∧
      (∀ j, j ≠ 0 → j < 1 → s'.processed_txns[j]? =
        ([Transaction.Deposit
          { txn_id := 1, acnt_id := 1, amount := 10, disputed := true }] :
            List Transaction)[j]?) ∧
      s'.processed_txns[1]? = some (Transaction.Chargeback { ref_id := 1, acnt_id := 1 }) :=
  c6_chargeback_frame
    { accounts := [{ id := 1, available := 0, held := 10, frozen := false }],
      acnt_map := [(1, 0)],
      processed_txns :=
        [Transaction.Deposit { txn_id := 1, acnt_id := 1, amount := 10, disputed := true }],
      txn_map := [(1, 0)] }
    { ref_id := 1, acnt_id := 1 } 0 0
    { id := 1, available := 0, held := 10, frozen := false }
    (Transaction.Deposit { txn_id := 1, acnt_id := 1, amount := 10, disputed := true })
    { txn_id := 1, acnt_id := 1, amount := 10, disputed := true }
    rfl rfl rfl rfl rfl rfl rfl

/-! ## C9 -/

/-- C9 (implicit): no account-match check on reference transactions.  When
account `c` exists and is unfrozen and the indexed, undisputed pure
transaction belongs to a different account `cOwner ≠ c` (held at a
different position `ai'` of the accounts arena), a dispute naming account
`c` but referencing that transaction succeeds, moves the transaction's
amount from account `c`'s available to account `c`'s held, and leaves the
owner's account record unchanged. -/
theorem c9_dispute_ignores_owner
    (s : PaymentsEngine) (c cOwner tid ai ai' ti : Nat)
    (acnt acnt' : Account) (tx : Transaction) (d : PureTxn)
    (hmap : s.acnt_map.lookup c = some ai)
    (hacct : s.accounts[ai]? = some acnt)
    (hfr : acnt.frozen = false)
    (htm : s.txn_map.lookup tid = some ti)
    (htx : s.processed_txns[ti]? = some tx)
    (hp : tx.pureTxn? = some d)
    (hnd : d.disputed = false)
    (hown : d.acnt_id = cOwner)
    (hne : cOwner ≠ c)
    (hmap' : s.acnt_map.lookup cOwner = some ai')
    (hacct' : s.accounts[ai']? = some acnt')
    (hneidx : ai' ≠ ai) :
    ∃ s₁, process_dispute s { ref_id := tid, acnt_id := c } = .ok s₁ ∧
      s₁.accounts[ai]? = some
        { acnt with available := acnt.available - d.amount, held := acnt.held + d.amount } ∧
      s₁.accounts[ai']? = some acnt' := by
  have hai : ai < s.accounts.length := getElem?_some_lt hacct
  refine ⟨_, process_dispute_build s { ref_id := tid, acnt_id := c } ai ti acnt tx d
    hmap hacct hfr htm htx hp hnd, List.getElem?_set_self hai, ?_⟩
  show (s.accounts.set ai _)[ai']? = some acnt'
  rw [List.getElem?_set_ne (fun h => hneidx h.symm)]
  exact hacct'

/-- C9 witness: a dispute naming account 1 but referencing a deposit that
belongs to account 2 succeeds, debits account 1 (driving it negative), and
leaves account 2 untouched. -/
theorem c9_witness :
    ∃ s₁, process_dispute
      { accounts := [{ id := 1, available := 5, held := 0, frozen := false },
                     { id := 2, available := 7, held := 0, frozen := false }],
        acnt_map := [(1, 0), (2, 1)],
        processed_txns :=
          [Transaction.Deposit { txn_id := 1, acnt_id := 2, amount := 7, disputed := false }],
        txn_map := [(1, 0)] }
      { ref_id := 1, acnt_id := 1 } = .ok s₁ ∧
      s₁.accounts[0]? = some
        { id := 1, available := (5 : Money) - 7, held := (0 : Money) + 7, frozen := false } ∧
      s₁.accounts[1]? = some { id := 2, available := 7, held := 0, frozen := false } :=
  c9_dispute_ignores_owner
    { accounts := [{ id := 1, available := 5, held := 0, frozen := false },
                   { id := 2, available := 7, held := 0, frozen := false }],
      acnt_map := [(1, 0), (2, 1)],
      processed_txns :=
        [Transaction.Deposit { txn_id := 1, acnt_id := 2, amount := 7, disputed := false }],
      txn_map := [(1, 0)] }
    1 2 1 0 1 0
    { id := 1, available := 5, held := 0, frozen := false }
    { id := 2, available := 7, held := 0, frozen := false }
    (Transaction.Deposit { txn_id := 1, acnt_id := 2, amount := 7, disputed := false })
    { txn_id := 1, acnt_id := 2, amount := 7, disputed := false }
    rfl rfl rfl rfl rfl rfl rfl rfl (by decide) rfl rfl (by decide)

/-! ## Success inversions of the five handlers -/

theorem not_isSome_none {α : Type} {o : Option α} (h : ¬o.isSome = true) : o = none :=
  Option.not_isSome_iff_eq_none.mp h

theorem process_deposit_ok (s : PaymentsEngine) (p : PureTxn) (s' : PaymentsEngine)
    (h : process_deposit s p = .ok s') :
    s.txn_map.lookup p.txn_id = none ∧
    ((∃ ai acnt, s.acnt_map.lookup p.acnt_id = some ai ∧ s.accounts[ai]? = some acnt ∧
        acnt.frozen = false ∧
        s' = { s with
          accounts := s.accounts.set ai { acnt with available := acnt.available + p.amount },
          processed_txns := s.processed_txns ++ [Transaction.Deposit p],
          txn_map := (p.txn_id, s.processed_txns.length) :: s.txn_map }) ∨
      (s.acnt_map.lookup p.acnt_id = none ∧
        s' = { accounts := s.accounts ++
                 [{ id := p.acnt_id, available := p.amount, held := 0, frozen := false }],
               acnt_map := (p.acnt_id, s.accounts.length) :: s.acnt_map,
               processed_txns := s.processed_txns ++ [Transaction.Deposit p],
               txn_map := (p.txn_id, s.processed_txns.length) :: s.txn_map })) := by
  simp only [process_deposit] at h
  split at h
  · exact StepResult.noConfusion h
  · rename_i hfree
    split at h
    · rename_i ai hmap
      split at h
      · exact StepResult.noConfusion h
      · rename_i acnt hacct
        split at h
        · exact StepResult.noConfusion h
        · rename_i hfr
          injection h with h'
          exact ⟨not_isSome_none hfree,
            .inl ⟨ai, acnt, hmap, hacct, by simpa using hfr, h'.symm⟩⟩
    · rename_i hmap
      injection h with h'
      exact ⟨not_isSome_none hfree, .inr ⟨hmap, h'.symm⟩⟩

theorem process_withdrawl_ok (s : PaymentsEngine) (p : PureTxn) (s' : PaymentsEngine)
    (h : process_withdrawl s p = .ok s') :
    s.txn_map.lookup p.txn_id = none ∧
    ∃ ai acnt, s.acnt_map.lookup p.acnt_id = some ai ∧ s.accounts[ai]? = some acnt ∧
      ¬acnt.available < p.amount ∧ acnt.frozen = false ∧
      s' = { s with
        accounts := s.accounts.set ai { acnt with available := acnt.available - p.amount },
        processed_txns := s.processed_txns ++ [Transaction.Withdrawal p],
        txn_map := (p.txn_id, s.processed_txns.length) :: s.txn_map } := by
  simp only [process_withdrawl] at h
  split at h
  · exact StepResult.noConfusion h
  · rename_i hfree
    split at h
    · rename_i ai hmap
      split at h
      · exact StepResult.noConfusion h
      · rename_i acnt hacct
        split at h
        · exact StepResult.noConfusion h
        · rename_i hlt
          split at h
          · exact StepResult.noConfusion h
          · rename_i hfr
            injection h with h'
            exact ⟨not_isSome_none hfree,
              ai, acnt, hmap, hacct, hlt, by simpa using hfr, h'.symm⟩
    · exact StepResult.noConfusion h

theorem get_ref_ok (s : PaymentsEngine) (r : RefTxn) (ai ti : Nat)
    (h : get_ref_txn_indicies s r = .ok ai ti) :
    s.acnt_map.lookup r.acnt_id = some ai ∧
    (∃ acnt, s.accounts[ai]? = some acnt ∧ acnt.frozen = false) ∧
    s.txn_map.lookup r.ref_id = some ti := by
  simp only [get_ref_txn_indicies] at h
  split at h
  · exact RefLookup.noConfusion h
  · rename_i ai₀ hmap
    split at h
    · exact RefLookup.noConfusion h
    · rename_i acnt hacct
      split at h
      · exact RefLookup.noConfusion h
      · rename_i hfr
        split at h
        · exact RefLookup.noConfusion h
        · rename_i ti₀ htm
          injection h with h1 h2
          subst h1
          subst h2
          exact ⟨hmap, ⟨acnt, hacct, by simpa using hfr⟩, htm⟩

theorem process_dispute_ok (s : PaymentsEngine) (r : RefTxn) (s' : PaymentsEngine)
    (h : process_dispute s r = .ok s') :
    ∃ ai ti acnt tx d,
      s.acnt_map.lookup r.acnt_id = some ai ∧ s.accounts[ai]? = some acnt ∧
      acnt.frozen = false ∧ s.txn_map.lookup r.ref_id = some ti ∧
      s.processed_txns[ti]? = some tx ∧ tx.pureTxn? = some d ∧ d.disputed = false ∧
      s' = { s with
        accounts := s.accounts.set ai
          { acnt with available := acnt.available - d.amount, held := acnt.held + d.amount },
        processed_txns := (s.processed_txns.set ti (tx.setDisputed true)) ++
          [Transaction.Dispute r] } := by
  simp only [process_dispute] at h
  split at h
  · exact StepResult.noConfusion h
  · exact StepResult.noConfusion h
  · rename_i ai ti heq
    obtain ⟨hmap, ⟨acnt₀, hacct₀, hfr₀⟩, htm⟩ := get_ref_ok s r ai ti heq
    split at h
    · rename_i d htx
      split at h
      · exact StepResult.noConfusion h
      · rename_i hnd
        split at h
        · exact StepResult.noConfusion h
        · rename_i acnt hacct
          injection h with h'
          have hfr : acnt.frozen = false := by
            rw [hacct₀] at hacct
            injection hacct with hh
            rw [← hh]
            exact hfr₀
          exact ⟨ai, ti, acnt, Transaction.Deposit d, d, hmap, hacct, hfr, htm, htx,
            rfl, by simpa using hnd, h'.symm⟩
    · rename_i d htx
      split at h
      · exact StepResult.noConfusion h
      · rename_i hnd
        split at h
        · exact StepResult.noConfusion h
        · rename_i acnt hacct
          injection h with h'
          have hfr : acnt.frozen = false := by
            rw [hacct₀] at hacct
            injection hacct with hh
            rw [← hh]
            exact hfr₀
          exact ⟨ai, ti, acnt, Transaction.Withdrawal d, d, hmap, hacct, hfr, htm, htx,
            rfl, by simpa using hnd, h'.symm⟩
    · exact StepResult.noConfusion h

theorem process_resolve_ok (s : PaymentsEngine) (r : RefTxn) (s' : PaymentsEngine)
    (h : process_resolve s r = .ok s') :
    ∃ ai ti acnt tx d,
      s.acnt_map.lookup r.acnt_id = some ai ∧ s.accounts[ai]? = some acnt ∧
      acnt.frozen = false ∧ s.txn_map.lookup r.ref_id = some ti ∧
      s.processed_txns[ti]? = some tx ∧ tx.pureTxn? = some d ∧ d.disputed = true ∧
      s' = { s with
        accounts := s.accounts.set ai
          { acnt with held := acnt.held - d.amount, available := acnt.available + d.amount },
        processed_txns := (s.processed_txns.set ti (tx.setDisputed false)) ++
          [Transaction.Resolve r] } := by
  simp only [process_resolve] at h
  split at h
  · exact StepResult.noConfusion h
  · exact StepResult.noConfusion h
  · rename_i ai ti heq
    obtain ⟨hmap, ⟨acnt₀, hacct₀, hfr₀⟩, htm⟩ := get_ref_ok s r ai ti heq
    split at h
    · rename_i d htx
      split at h
      · exact StepResult.noConfusion h
      · rename_i hnd
        split at h
        · exact StepResult.noConfusion h
        · rename_i acnt hacct
          injection h with h'
          have hfr : acnt.frozen = false := by
            rw [hacct₀] at hacct
            injection hacct with hh
            rw [← hh]
            exact hfr₀
          exact ⟨ai, ti, acnt, Transaction.Deposit d, d, hmap, hacct, hfr, htm, htx,
            rfl, by simpa using hnd, h'.symm⟩
    · rename_i d htx
      split at h
      · exact StepResult.noConfusion h
      · rename_i hnd
        split at h
        · exact StepResult.noConfusion h
        · rename_i acnt hacct
          injection h with h'
          have hfr : acnt.frozen = false := by
            rw [hacct₀] at hacct
            injection hacct with hh
            rw [← hh]
            exact hfr₀
          exact ⟨ai, ti, acnt, Transaction.Withdrawal d, d, hmap, hacct, hfr, htm, htx,
            rfl, by simpa using hnd, h'.symm⟩
    · exact StepResult.noConfusion h

theorem process_chargeback_ok (s : PaymentsEngine) (r : RefTxn) (s' : PaymentsEngine)
    (h : process_chargeback s r = .ok s') :
    ∃ ai ti acnt tx d,
      s.acnt_map.lookup r.acnt_id = some ai ∧ s.accounts[ai]? = some acnt ∧
      acnt.frozen = false ∧ s.txn_map.lookup r.ref_id = some ti ∧
      s.processed_txns[ti]? = some tx ∧ tx.pureTxn? = some d ∧ d.disputed = true ∧
      s' = { s with
        accounts := s.accounts.set ai
          { acnt with held := acnt.held - d.amount, frozen := true },
        processed_txns := (s.processed_txns.set ti (tx.setDisputed false)) ++
          [Transaction.Chargeback r] } := by
  simp only [process_chargeback] at h
  split at h
  · exact StepResult.noConfusion h
  · exact StepResult.noConfusion h
  · rename_i ai ti heq
    obtain ⟨hmap, ⟨acnt₀, hacct₀, hfr₀⟩, htm⟩ := get_ref_ok s r ai ti heq
    split at h
    · rename_i d htx
      split at h
      · exact StepResult.noConfusion h
      · rename_i hnd
        split at h
        · exact StepResult.noConfusion h
        · rename_i acnt hacct
          injection h with h'
          have hfr : acnt.frozen = false := by
            rw [hacct₀] at hacct
            injection hacct with hh
            rw [← hh]
            exact hfr₀
          exact ⟨ai, ti, acnt, Transaction.Deposit d, d, hmap, hacct, hfr, htm, htx,
            rfl, by simpa using hnd, h'.symm⟩
    · rename_i d htx
      split at h
      · exact StepResult.noConfusion h
      · rename_i hnd
        split at h
        · exact StepResult.noConfusion h
        · rename_i acnt hacct
          injection h with h'
          have hfr : acnt.frozen = false := by
            rw [hacct₀] at hacct
            injection hacct with hh
            rw [← hh]
            exact hfr₀
          exact ⟨ai, ti, acnt, Transaction.Withdrawal d, d, hmap, hacct, hfr, htm, htx,
            rfl, by simpa using hnd, h'.symm⟩
    · exact StepResult.noConfusion h

/-! ## The engine invariant -/

/-- Invariant of every reachable ledger state: account indices are in
bounds, distinct account ids map to distinct arena slots, and every
`txn_map` entry points at a history position holding a pure (deposit or
withdrawal) entry. -/
structure EngineInv (s : PaymentsEngine) : Prop where
  acnt_bound : ∀ c ai, s.acnt_map.lookup c = some ai → ai < s.accounts.length
  acnt_inj : ∀ c₁ c₂ ai, s.acnt_map.lookup c₁ = some ai →
    s.acnt_map.lookup c₂ = some ai → c₁ = c₂
  txn_pure : ∀ tid ti, s.txn_map.lookup tid = some ti →
    ∃ tx d, s.processed_txns[ti]? = some tx ∧ tx.pureTxn? = some d

theorem inv_new : EngineInv PaymentsEngine.new := by
  refine ⟨?_, ?_, ?_⟩
  · intro c ai h
    simp [PaymentsEngine.new] at h
  · intro c₁ c₂ ai h₁ h₂
    simp [PaymentsEngine.new] at h₁
  · intro tid ti h
    simp [PaymentsEngine.new] at h

/-- Appending a pure entry at the end of the history and indexing it at the
old length preserves the history-purity component. -/
theorem txn_pure_push (s : PaymentsEngine)
    (hpure : ∀ tid ti, s.txn_map.lookup tid = some ti →
      ∃ tx d, s.processed_txns[ti]? = some tx ∧ tx.pureTxn? = some d)
    (newTx : Transaction) (dNew : PureTxn) (hnew : newTx.pureTxn? = some dNew)
    (k : Nat) :
    ∀ tid ti, ((k, s.processed_txns.length) :: s.txn_map).lookup tid = some ti →
      ∃ tx d, (s.processed_txns ++ [newTx])[ti]? = some tx ∧ tx.pureTxn? = some d := by
  intro tid ti hl
  rw [lookup_cons'] at hl
  by_cases htid : tid = k
  · rw [if_pos htid] at hl
    injection hl with hl
    subst hl
    exact ⟨newTx, dNew, List.getElem?_concat_length _ _, hnew⟩
  · rw [if_neg htid] at hl
    obtain ⟨tx, d, htx, hd⟩ := hpure tid ti hl
    refine ⟨tx, d, ?_, hd⟩
    rw [List.getElem?_append_left (getElem?_some_lt htx)]
    exact htx

/-- Setting a history position to a pure entry and appending a reference
entry (which is not indexed) preserves the history-purity component. -/
theorem txn_pure_set_append (s : PaymentsEngine)
    (hpure : ∀ tid ti, s.txn_map.lookup tid = some ti →
      ∃ tx d, s.processed_txns[ti]? = some tx ∧ tx.pureTxn? = some d)
    (ti : Nat) (T app : Transaction) (dT : PureTxn) (hT : T.pureTxn? = some dT) :
    ∀ tid ti', s.txn_map.lookup tid = some ti' →
      ∃ tx d, ((s.processed_txns.set ti T) ++ [app])[ti']? = some tx ∧
        tx.pureTxn? = some d := by
  intro tid ti' hl
  obtain ⟨tx', d', htx', hd'⟩ := hpure tid ti' hl
  have hlt : ti' < s.processed_txns.length := getElem?_some_lt htx'
  by_cases hti : ti' = ti
  · subst hti
    refine ⟨T, dT, ?_, hT⟩
    rw [List.getElem?_append_left (by simpa using hlt), List.getElem?_set_self hlt]
  · refine ⟨tx', d', ?_, hd'⟩
    rw [List.getElem?_append_left (by simpa using hlt),
      List.getElem?_set_ne (fun hh => hti hh.symm)]
    exact htx'

theorem inv_process_txn (s : PaymentsEngine) (t : Transaction) (s' : PaymentsEngine)
    (hInv : EngineInv s) (h : process_txn s t = .ok s') : EngineInv s' := by
  cases t with
  | Deposit p =>
    obtain ⟨hfree, hcase⟩ := process_deposit_ok s p s' h
    rcases hcase with ⟨ai, acnt, hmap, hacct, hfr, rfl⟩ | ⟨hmap, rfl⟩
    · refine ⟨?_, ?_, ?_⟩
      · intro c aj hl
        have := hInv.acnt_bound c aj hl
        simpa using this
      · intro c₁ c₂ aj h₁ h₂
        exact hInv.acnt_inj c₁ c₂ aj h₁ h₂
      · exact txn_pure_push s hInv.txn_pure (Transaction.Deposit p) p rfl p.txn_id
    · refine ⟨?_, ?_, ?_⟩
      · intro c aj hl
        rw [lookup_cons'] at hl
        by_cases hc : c = p.acnt_id
        · rw [if_pos hc] at hl
          injection hl with hl
          subst hl
          simp
        · rw [if_neg hc] at hl
          have := hInv.acnt_bound c aj hl
          simp
          omega
      · intro c₁ c₂ aj h₁ h₂
        rw [lookup_cons'] at h₁ h₂
        by_cases h₁c : c₁ = p.acnt_id <;> by_cases h₂c : c₂ = p.acnt_id
        · rw [h₁c, h₂c]
        · rw [if_pos h₁c] at h₁
          rw [if_neg h₂c] at h₂
          injection h₁ with h₁
          subst h₁
          exact absurd (hInv.acnt_bound c₂ _ h₂) (lt_irrefl _)
        · rw [if_neg h₁c] at h₁
          rw [if_pos h₂c] at h₂
          injection h₂ with h₂
          subst h₂
          exact absurd (hInv.acnt_bound c₁ _ h₁) (lt_irrefl _)
        · rw [if_neg h₁c] at h₁
          rw [if_neg h₂c] at h₂
          exact hInv.acnt_inj c₁ c₂ aj h₁ h₂
      · exact txn_pure_push s hInv.txn_pure (Transaction.Deposit p) p rfl p.txn_id
  | Withdrawal p =>
    obtain ⟨hfree, ai, acnt, hmap, hacct, hlt, hfr, rfl⟩ := process_withdrawl_ok s p s' h
    refine ⟨?_, ?_, ?_⟩
    · intro c aj hl
      have := hInv.acnt_bound c aj hl
      simpa using this
    · intro c₁ c₂ aj h₁ h₂
      exact hInv.acnt_inj c₁ c₂ aj h₁ h₂
    · exact txn_pure_push s hInv.txn_pure (Transaction.Withdrawal p) p rfl p.txn_id
  | Dispute r =>
    obtain ⟨ai, ti, acnt, tx, d, hmap, hacct, hfr, htm, htx, hp, hnd, rfl⟩ :=
      process_dispute_ok s r s' h
    refine ⟨?_, ?_, ?_⟩
    · intro c aj hl
      have := hInv.acnt_bound c aj hl
      simpa using this
    · intro c₁ c₂ aj h₁ h₂
      exact hInv.acnt_inj c₁ c₂ aj h₁ h₂
    · exact txn_pure_set_append s hInv.txn_pure ti (tx.setDisputed true)
        (Transaction.Dispute r) { d with disputed := true }
        (pureTxn?_setDisputed tx d true hp)
  | Resolve r =>
    obtain ⟨ai, ti, acnt, tx, d, hmap, hacct, hfr, htm, htx, hp, hnd, rfl⟩ :=
      process_resolve_ok s r s' h
    refine ⟨?_, ?_, ?_⟩
    · intro c aj hl
      have := hInv.acnt_bound c aj hl
      simpa using this
    · intro c₁ c₂ aj h₁ h₂
      exact hInv.acnt_inj c₁ c₂ aj h₁ h₂
    · exact txn_pure_set_append s hInv.txn_pure ti (tx.setDisputed false)
        (Transaction.Resolve r) { d with disputed := false }
        (pureTxn?_setDisputed tx d false hp)
  | Chargeback r =>
    obtain ⟨ai, ti, acnt, tx, d, hmap, hacct, hfr, htm, htx, hp, hnd, rfl⟩ :=
      process_chargeback_ok s r s' h
    refine ⟨?_, ?_, ?_⟩
    · intro c aj hl
      have := hInv.acnt_bound c aj hl
      simpa using this
    · intro c₁ c₂ aj h₁ h₂
      exact hInv.acnt_inj c₁ c₂ aj h₁ h₂
    · exact txn_pure_set_append s hInv.txn_pure ti (tx.setDisputed false)
        (Transaction.Chargeback r) { d with disputed := false }
        (pureTxn?_setDisputed tx d false hp)

/-! ## No handler panics from an invariant state -/

theorem get_ref_no_panic (s : PaymentsEngine) (r : RefTxn) (hInv : EngineInv s) :
    get_ref_txn_indicies s r ≠ .panicked := by
  intro h
  simp only [get_ref_txn_indicies] at h
  split at h
  · exact RefLookup.noConfusion h
  · rename_i ai hmap
    split at h
    · rename_i hacct
      have hlt := hInv.acnt_bound _ _ hmap
      rw [List.getElem?_eq_none_iff] at hacct
      omega
    · rename_i acnt hacct
      split at h
      · exact RefLookup.noConfusion h
      · split at h
        · exact RefLookup.noConfusion h
        · exact RefLookup.noConfusion h

theorem process_txn_no_panic (s : PaymentsEngine) (t : Transaction) (hInv : EngineInv s) :
    (process_txn s t).isPanic = false := by
  cases t with
  | Deposit p =>
    simp only [process_txn, process_deposit]
    split
    · rfl
    · split
      · rename_i ai hmap
        split
        · rename_i hacct
          have hlt := hInv.acnt_bound _ _ hmap
          rw [List.getElem?_eq_none_iff] at hacct
          omega
        · split
          · rfl
          · rfl
      · rfl
  | Withdrawal p =>
    simp only [process_txn, process_withdrawl]
    split
    · rfl
    · split
      · rename_i ai hmap
        split
        · rename_i hacct
          have hlt := hInv.acnt_bound _ _ hmap
          rw [List.getElem?_eq_none_iff] at hacct
          omega
        · split
          · rfl
          · split
            · rfl
            · rfl
      · rfl
  | Dispute r =>
    simp only [process_txn, process_dispute]
    split
    · rfl
    · rename_i heq
      exact absurd heq (get_ref_no_panic s r hInv)
    · rename_i ai ti heq
      obtain ⟨hmap, ⟨acnt, hacct, hfr⟩, htm⟩ := get_ref_ok s r ai ti heq
      obtain ⟨tx, d, htx, hp⟩ := hInv.txn_pure _ _ htm
      rw [htx, hacct]
      cases tx with
      | Deposit q =>
        simp only
        split
        · rfl
        · rfl
      | Withdrawal q =>
        simp only
        split
        · rfl
        · rfl
      | Dispute q => simp [Transaction.pureTxn?] at hp
      | Resolve q => simp [Transaction.pureTxn?] at hp
      | Chargeback q => simp [Transaction.pureTxn?] at hp
  | Resolve r =>
    simp only [process_txn, process_resolve]
    split
    · rfl
    · rename_i heq
      exact absurd heq (get_ref_no_panic s r hInv)
    · rename_i ai ti heq
      obtain ⟨hmap, ⟨acnt, hacct, hfr⟩, htm⟩ := get_ref_ok s r ai ti heq
      obtain ⟨tx, d, htx, hp⟩ := hInv.txn_pure _ _ htm
      rw [htx, hacct]
      cases tx with
      | Deposit q =>
        simp only
        split
        · rfl
        · rfl
      | Withdrawal q =>
        simp only
        split
        · rfl
        · rfl
      | Dispute q => simp [Transaction.pureTxn?] at hp
      | Resolve q => simp [Transaction.pureTxn?] at hp
      | Chargeback q => simp [Transaction.pureTxn?] at hp
  | Chargeback r =>
    simp only [process_txn, process_chargeback]
    split
    · rfl
    · rename_i heq
      exact absurd heq (get_ref_no_panic s r hInv)
    · rename_i ai ti heq
      obtain ⟨hmap, ⟨acnt, hacct, hfr⟩, htm⟩ := get_ref_ok s r ai ti heq
      obtain ⟨tx, d, htx, hp⟩ := hInv.txn_pure _ _ htm
      rw [htx, hacct]
      cases tx with
      | Deposit q =>
        simp only
        split
        · rfl
        · rfl
      | Withdrawal q =>
        simp only
        split
        · rfl
        · rfl
      | Dispute q => simp [Transaction.pureTxn?] at hp
      | Resolve q => simp [Transaction.pureTxn?] at hp
      | Chargeback q => simp [Transaction.pureTxn?] at hp

theorem run_inv (ts : List Transaction) : ∀ s : PaymentsEngine,
    EngineInv s → EngineInv (run s ts) := by
  induction ts with
  | nil => intro s hInv; exact hInv
  | cons t ts ih =>
    intro s hInv
    show EngineInv (run s (t :: ts))
    rw [run]
    split
    · rename_i s' hs'
      exact ih s' (inv_process_txn s t s' hInv hs')
    · rename_i s' e hs'
      rw [process_txn_err_state s t s' e hs']
      exact ih s hInv
    · exact hInv

/-! ## C7 -/

/-- C7: the defensive panic is unreachable.  In every ledger state reachable
from the empty state by any sequence of transactions, every `txn_map` entry
points at a history position holding a `Deposit` or `Withdrawal` entry, and
consequently no call of `process_txn` (hence none of the five handlers) can
reach a panic — neither the non-pure match arm nor an out-of-bounds index. -/
theorem c7_panic_unreachable (ts : List Transaction) :
    (∀ tid ti, (run PaymentsEngine.new ts).txn_map.lookup tid = some ti →
      ∃ tx d, (run PaymentsEngine.new ts).processed_txns[ti]? = some tx ∧
        tx.pureTxn? = some d) ∧
    ∀ t, (process_txn (run PaymentsEngine.new ts) t).isPanic = false := by
  have hInv := run_inv ts PaymentsEngine.new inv_new
  exact ⟨hInv.txn_pure, fun t => process_txn_no_panic _ t hInv⟩

/-- C7 witness: after a concrete deposit-dispute prefix, a chargeback (the
handler with the defensive non-pure match arm) does not panic. -/
theorem c7_witness :
    (process_txn
      (run PaymentsEngine.new
        [Transaction.Deposit { txn_id := 1, acnt_id := 1, amount := 10, disputed := false },
         Transaction.Dispute { ref_id := 1, acnt_id := 1 }])
      (Transaction.Chargeback { ref_id := 1, acnt_id := 1 })).isPanic = false :=
  (c7_panic_unreachable
    [Transaction.Deposit { txn_id := 1, acnt_id := 1, amount := 10, disputed := false },
     Transaction.Dispute { ref_id := 1, acnt_id := 1 }]).2
    (Transaction.Chargeback { ref_id := 1, acnt_id := 1 })

/-! ## C10 -/

/-- The accounts arena transformation of any successful step: either one
slot is rewritten (never unfreezing it) or a new unfrozen account is
appended. -/
theorem process_txn_ok_accounts (s : PaymentsEngine) (t : Transaction)
    (s' : PaymentsEngine) (h : process_txn s t = .ok s') :
    (∃ ai acnt m, s.accounts[ai]? = some acnt ∧ s'.accounts = s.accounts.set ai m ∧
      (acnt.frozen = true → m.frozen = true)) ∨
    (∃ na, s'.accounts = s.accounts ++ [na]) := by
  cases t with
  | Deposit p =>
    obtain ⟨hfree, hcase⟩ := process_deposit_ok s p s' h
    rcases hcase with ⟨ai, acnt, hmap, hacct, hfr, rfl⟩ | ⟨hmap, rfl⟩
    · exact .inl ⟨ai, acnt, _, hacct, rfl, fun hx => hx⟩
    · exact .inr ⟨_, rfl⟩
  | Withdrawal p =>
    obtain ⟨hfree, ai, acnt, hmap, hacct, hlt, hfr, rfl⟩ := process_withdrawl_ok s p s' h
    exact .inl ⟨ai, acnt, _, hacct, rfl, fun hx => hx⟩
  | Dispute r =>
    obtain ⟨ai, ti, acnt, tx, d, hmap, hacct, hfr, htm, htx, hp, hnd, rfl⟩ :=
      process_dispute_ok s r s' h
    exact .inl ⟨ai, acnt, _, hacct, rfl, fun hx => hx⟩
  | Resolve r =>
    obtain ⟨ai, ti, acnt, tx, d, hmap, hacct, hfr, htm, htx, hp, hnd, rfl⟩ :=
      process_resolve_ok s r s' h
    exact .inl ⟨ai, acnt, _, hacct, rfl, fun hx => hx⟩
  | Chargeback r =>
    obtain ⟨ai, ti, acnt, tx, d, hmap, hacct, hfr, htm, htx, hp, hnd, rfl⟩ :=
      process_chargeback_ok s r s' h
    exact .inl ⟨ai, acnt, _, hacct, rfl, fun _ => rfl⟩

theorem step_frozen_mono (s : PaymentsEngine) (t : Transaction) (s' : PaymentsEngine)
    (h : process_txn s t = .ok s') (i : Nat) (a : Account)
    (hi : s.accounts[i]? = some a) (hf : a.frozen = true) :
    ∃ a', s'.accounts[i]? = some a' ∧ a'.frozen = true := by
  rcases process_txn_ok_accounts s t s' h with ⟨ai, acnt, m, hacct, heq, hmono⟩ | ⟨na, heq⟩
  · by_cases hia : i = ai
    · subst hia
      rw [hi] at hacct
      injection hacct with hacct
      subst hacct
      refine ⟨m, ?_, hmono hf⟩
      rw [heq]
      exact List.getElem?_set_self (getElem?_some_lt hi)
    · refine ⟨a, ?_, hf⟩
      rw [heq, List.getElem?_set_ne (fun hh => hia hh.symm)]
      exact hi
  · refine ⟨a, ?_, hf⟩
    rw [heq, List.getElem?_append_left (getElem?_some_lt hi)]
    exact hi

/-- C10 (implicit): frozen is permanent.  No transition ever clears an
account's `frozen` flag: whatever sequence of transactions is subsequently
run, a frozen account slot stays frozen. -/
theorem c10_frozen_is_permanent (ts : List Transaction) :
    ∀ (s : PaymentsEngine) (i : Nat) (a : Account),
      s.accounts[i]? = some a → a.frozen = true →
      ∃ a', (run s ts).accounts[i]? = some a' ∧ a'.frozen = true := by
  induction ts with
  | nil => intro s i a hi hf; exact ⟨a, hi, hf⟩
  | cons t ts ih =>
    intro s i a hi hf
    show ∃ a', (run s (t :: ts)).accounts[i]? = some a' ∧ a'.frozen = true
    rw [run]
    split
    · rename_i s' hs'
      obtain ⟨a₁, hi₁, hf₁⟩ := step_frozen_mono s t s' hs' i a hi hf
      exact ih s' i a₁ hi₁ hf₁
    · rename_i s' e hs'
      rw [process_txn_err_state s t s' e hs']
      exact ih s i a hi hf
    · exact ⟨a, hi, hf⟩

/-- C10 witness: a concrete frozen account stays frozen across a later
(accepted) deposit to another account. -/
theorem c10_witness :
    ∃ a', (run
      { accounts := [{ id := 1, available := 0, held := 0, frozen := true }],
        acnt_map := [(1, 0)], processed_txns := [], txn_map := [] }
      [Transaction.Deposit { txn_id := 5, acnt_id := 2, amount := 3, disputed := false }]
      ).accounts[0]? = some a' ∧ a'.frozen = true :=
  c10_frozen_is_permanent
    [Transaction.Deposit { txn_id := 5, acnt_id := 2, amount := 3, disputed := false }]
    { accounts := [{ id := 1, available := 0, held := 0, frozen := true }],
      acnt_map := [(1, 0)], processed_txns := [], txn_map := [] }
    0 { id := 1, available := 0, held := 0, frozen := true } rfl rfl

/-! ## C2 -/

theorem deposit_balances (s : PaymentsEngine) (p : PureTxn) (s' : PaymentsEngine)
    (hInv : EngineInv s) (h : process_deposit s p = .ok s') :
    (∀ c, availOf s' c = if c = p.acnt_id then availOf s c + p.amount else availOf s c) ∧
    (∀ c, heldOf s' c = heldOf s c) := by
  obtain ⟨hfree, hcase⟩ := process_deposit_ok s p s' h
  rcases hcase with ⟨ai, acnt, hmap, hacct, hfr, rfl⟩ | ⟨hmap, rfl⟩
  · have hai : ai < s.accounts.length := getElem?_some_lt hacct
    constructor
    · intro c
      by_cases hc : c = p.acnt_id
      · subst hc
        rw [if_pos rfl]
        simp only [availOf, hmap, hacct, List.getElem?_set_self hai]
      · rw [if_neg hc]
        cases hl : s.acnt_map.lookup c with
        | none => simp only [availOf, hl]
        | some aj =>
          have hne : ai ≠ aj := by
            intro he
            exact hc (hInv.acnt_inj c p.acnt_id ai (he ▸ hl) hmap)
          simp only [availOf, hl, List.getElem?_set_ne hne]
    · intro c
      by_cases hc : c = p.acnt_id
      · subst hc
        simp only [heldOf, hmap, hacct, List.getElem?_set_self hai]
      · cases hl : s.acnt_map.lookup c with
        | none => simp only [heldOf, hl]
        | some aj =>
          have hne : ai ≠ aj := by
            intro he
            exact hc (hInv.acnt_inj c p.acnt_id ai (he ▸ hl) hmap)
          simp only [heldOf, hl, List.getElem?_set_ne hne]
  · constructor
    · intro c
      by_cases hc : c = p.acnt_id
      · subst hc
        rw [if_pos rfl]
        simp [availOf, lookup_cons', hmap, List.getElem?_concat_length]
      · rw [if_neg hc]
        simp only [availOf, lookup_cons', if_neg hc]
        cases hl : s.acnt_map.lookup c with
        | none => simp only [hl]
        | some aj =>
          have haj : aj < s.accounts.length := hInv.acnt_bound c aj hl
          simp only [hl, List.getElem?_append_left haj]
    · intro c
      by_cases hc : c = p.acnt_id
      · subst hc
        simp [heldOf, lookup_cons', hmap, List.getElem?_concat_length]
      · simp only [heldOf, lookup_cons', if_neg hc]
        cases hl : s.acnt_map.lookup c with
        | none => simp only [hl]
        | some aj =>
          have haj : aj < s.accounts.length := hInv.acnt_bound c aj hl
          simp only [hl, List.getElem?_append_left haj]

theorem withdrawl_balances (s : PaymentsEngine) (p : PureTxn) (s' : PaymentsEngine)
    (hInv : EngineInv s) (h : process_withdrawl s p = .ok s') :
    (∀ c, availOf s' c = if c = p.acnt_id then availOf s c - p.amount else availOf s c) ∧
    (∀ c, heldOf s' c = heldOf s c) := by
  obtain ⟨hfree, ai, acnt, hmap, hacct, hlt, hfr, rfl⟩ := process_withdrawl_ok s p s' h
  have hai : ai < s.accounts.length := getElem?_some_lt hacct
  constructor
  · intro c
    by_cases hc : c = p.acnt_id
    · subst hc
      rw [if_pos rfl]
      simp only [availOf, hmap, hacct, List.getElem?_set_self hai]
    · rw [if_neg hc]
      cases hl : s.acnt_map.lookup c with
      | none => simp only [availOf, hl]
      | some aj =>
        have hne : ai ≠ aj := by
          intro he
          exact hc (hInv.acnt_inj c p.acnt_id ai (he ▸ hl) hmap)
        simp only [availOf, hl, List.getElem?_set_ne hne]
  · intro c
    by_cases hc : c = p.acnt_id
    · subst hc
      simp only [heldOf, hmap, hacct, List.getElem?_set_self hai]
    · cases hl : s.acnt_map.lookup c with
      | none => simp only [heldOf, hl]
      | some aj =>
        have hne : ai ≠ aj := by
          intro he
          exact hc (hInv.acnt_inj c p.acnt_id ai (he ▸ hl) hmap)
        simp only [heldOf, hl, List.getElem?_set_ne hne]

theorem c2_aux (ts : List Transaction) : ∀ s : PaymentsEngine, EngineInv s →
    ts.all Transaction.isPure = true → acceptsAll s ts = true →
    (∀ c, availOf (run s ts) c =
      availOf s c + (depositSum c ts - withdrawalSum c ts)) ∧
    (∀ c, heldOf (run s ts) c = heldOf s c) := by
  induction ts with
  | nil =>
    intro s _ _ _
    constructor <;> intro c <;> simp [run, depositSum, withdrawalSum]
  | cons t ts ih =>
    intro s hInv hpure hacc
    have hpuret : t.isPure = true := by
      simp only [List.all_cons, Bool.and_eq_true] at hpure
      exact hpure.1
    have hpure' : ts.all Transaction.isPure = true := by
      simp only [List.all_cons, Bool.and_eq_true] at hpure
      exact hpure.2
    rw [acceptsAll] at hacc
    cases hstep : process_txn s t with
    | ok s₁ =>
      rw [hstep] at hacc
      have hInv₁ := inv_process_txn s t s₁ hInv hstep
      obtain ⟨ihA, ihH⟩ := ih s₁ hInv₁ hpure' hacc
      have hrun : run s (t :: ts) = run s₁ ts := by rw [run, hstep]
      cases t with
      | Deposit p =>
        obtain ⟨hA, hH⟩ := deposit_balances s p s₁ hInv hstep
        constructor
        · intro c
          rw [hrun, ihA c, hA c]
          simp only [depositSum, withdrawalSum]
          by_cases hc : c = p.acnt_id
          · rw [if_pos hc, if_pos hc.symm]
            ring
          · rw [if_neg hc, if_neg (fun hh => hc hh.symm)]
            ring
        · intro c
          rw [hrun, ihH c, hH c]
      | Withdrawal p =>
        obtain ⟨hA, hH⟩ := withdrawl_balances s p s₁ hInv hstep
        constructor
        · intro c
          rw [hrun, ihA c, hA c]
          simp only [depositSum, withdrawalSum]
          by_cases hc : c = p.acnt_id
          · rw [if_pos hc, if_pos hc.symm]
            ring
          · rw [if_neg hc, if_neg (fun hh => hc hh.symm)]
            ring
        · intro c
          rw [hrun, ihH c, hH c]
      | Dispute r => simp [Transaction.isPure] at hpuret
      | Resolve r => simp [Transaction.isPure] at hpuret
      | Chargeback r => simp [Transaction.isPure] at hpuret
    | err s₁ e =>
      rw [hstep] at hacc
      exact absurd hacc (by simp)
    | panicked =>
      rw [hstep] at hacc
      exact absurd hacc (by simp)

/-- C2: pure-run accounting.  For every sequence of deposits and
withdrawals, all accepted from the empty ledger, each account's final
available balance is the sum of the amounts of its deposits minus the sum
of the amounts of its withdrawals (amounts are already truncated at
ingestion and are summed with no further truncation), and its held balance
is 0. -/
theorem c2_pure_run_balances (ts : List Transaction)
    (hpure : ts.all Transaction.isPure = true)
    (hacc : acceptsAll PaymentsEngine.new ts = true) (c : Nat) :
    availOf (run PaymentsEngine.new ts) c = depositSum c ts - withdrawalSum c ts ∧
    heldOf (run PaymentsEngine.new ts) c = 0 := by
  obtain ⟨hA, hH⟩ := c2_aux ts PaymentsEngine.new inv_new hpure hacc
  have h0 : availOf PaymentsEngine.new c = 0 := rfl
  have h0' : heldOf PaymentsEngine.new c = 0 := rfl
  constructor
  · rw [hA c, h0, zero_add]
  · rw [hH c, h0']

/-- C2 witness: a deposit of 10 and a withdrawal of 4 on account 1, both
accepted from the empty ledger. -/
theorem c2_witness :
    ([Transaction.Deposit { txn_id := 1, acnt_id := 1, amount := 10, disputed := false },
      Transaction.Withdrawal
        { txn_id := 2, acnt_id := 1, amount := 4, disputed := false }].all
      Transaction.isPure = true) ∧
    acceptsAll PaymentsEngine.new
      [Transaction.Deposit { txn_id := 1, acnt_id := 1, amount := 10, disputed := false },
       Transaction.Withdrawal
        { txn_id := 2, acnt_id := 1, amount := 4, disputed := false }] = true ∧
    (availOf (run PaymentsEngine.new
        [Transaction.Deposit { txn_id := 1, acnt_id := 1, amount := 10, disputed := false },
         Transaction.Withdrawal
          { txn_id := 2, acnt_id := 1, amount := 4, disputed := false }]) 1 =
      depositSum 1
        [Transaction.Deposit { txn_id := 1, acnt_id := 1, amount := 10, disputed := false },
         Transaction.Withdrawal
          { txn_id := 2, acnt_id := 1, amount := 4, disputed := false }] -
      withdrawalSum 1
        [Transaction.Deposit { txn_id := 1, acnt_id := 1, amount := 10, disputed := false },
         Transaction.Withdrawal
          { txn_id := 2, acnt_id := 1, amount := 4, disputed := false }] ∧
     heldOf (run PaymentsEngine.new
        [Transaction.Deposit { txn_id := 1, acnt_id := 1, amount := 10, disputed := false },
         Transaction.Withdrawal
          { txn_id := 2, acnt_id := 1, amount := 4, disputed := false }]) 1 = 0) :=
  ⟨by decide, by decide,
   c2_pure_run_balances
    [Transaction.Deposit { txn_id := 1, acnt_id := 1, amount := 10, disputed := false },
     Transaction.Withdrawal { txn_id := 2, acnt_id := 1, amount := 4, disputed := false }]
    (by decide) (by decide) 1⟩

/-! ## C4 -/

/-- End-to-end scenario C: deposit 10.0 to new account 1 as txn 1, dispute
of txn 1, chargeback of txn 1. -/
def c4Script : List Transaction :=
  [Transaction.Deposit { txn_id := 1, acnt_id := 1, amount := 10, disputed := false },
   Transaction.Dispute { ref_id := 1, acnt_id := 1 },
   Transaction.Chargeback { ref_id := 1, acnt_id := 1 }]

/-- The ledger state after running scenario C from the empty ledger. -/
def c4State : PaymentsEngine := run PaymentsEngine.new c4Script

theorem c4State_eq : c4State =
    { accounts := [{ id := 1, available := 0, held := 0, frozen := true }],
      acnt_map := [(1, 0)],
      processed_txns :=
        [Transaction.Deposit { txn_id := 1, acnt_id := 1, amount := 10, disputed := false },
         Transaction.Dispute { ref_id := 1, acnt_id := 1 },
         Transaction.Chargeback { ref_id := 1, acnt_id := 1 }],
      txn_map := [(1, 0)] } := by
  with_unfolding_all decide

/-- C4 counterexample: after scenario C the claim "every subsequent
transaction against account 1 fails with `AccountFrozen`" is false — a
fresh withdrawal against account 1 fails with `AccountLacksFunds` instead
(and a reused transaction id would fail with `TxnIdAlreadyExists`). -/
theorem c4_counterexample :
    process_txn c4State
      (Transaction.Withdrawal { txn_id := 2, acnt_id := 1, amount := 5, disputed := false })
      = .err c4State TxnErrors.AccountLacksFunds ∧
    TxnErrors.AccountLacksFunds ≠ TxnErrors.AccountFrozen := by
  with_unfolding_all decide

/-- C4 amended: after scenario C, account 1 has available 0, held 0, total
0 and is frozen; every subsequent transaction naming account 1 fails and
leaves the state unchanged.  Disputes, resolves and chargebacks fail with
`AccountFrozen`; a deposit with a fresh transaction id fails with
`AccountFrozen`; a withdrawal with a fresh transaction id fails with
`AccountLacksFunds` when its amount is positive (the funds check precedes
the frozen check and available is 0) and with `AccountFrozen` otherwise; a
deposit or withdrawal reusing an indexed transaction id fails with
`TxnIdAlreadyExists`. -/
theorem c4_amended_every_followup_fails :
    run PaymentsEngine.new c4Script = c4State ∧
    c4State.accounts = [{ id := 1, available := 0, held := 0, frozen := true }] ∧
    ({ id := 1, available := 0, held := 0, frozen := true } : Account).get_total = 0 ∧
    (∀ r : RefTxn, r.acnt_id = 1 →
      process_dispute c4State r = .err c4State TxnErrors.AccountFrozen ∧
      process_resolve c4State r = .err c4State TxnErrors.AccountFrozen ∧
      process_chargeback c4State r = .err c4State TxnErrors.AccountFrozen) ∧
    (∀ p : PureTxn, p.acnt_id = 1 → c4State.txn_map.lookup p.txn_id = none →
      process_deposit c4State p = .err c4State TxnErrors.AccountFrozen ∧
      process_withdrawl c4State p = .err c4State
        (if 0 < p.amount then TxnErrors.AccountLacksFunds else TxnErrors.AccountFrozen)) ∧
    (∀ p : PureTxn, (c4State.txn_map.lookup p.txn_id).isSome = true →
      process_deposit c4State p = .err c4State TxnErrors.TxnIdAlreadyExists ∧
      process_withdrawl c4State p = .err c4State TxnErrors.TxnIdAlreadyExists) ∧
    (∀ t : Transaction, t.acntId = 1 → ∃ e, process_txn c4State t = .err c4State e) := by
  have hacc : c4State.accounts = [{ id := 1, available := 0, held := 0, frozen := true }] := by
    rw [c4State_eq]
  have htot : ({ id := 1, available := 0, held := 0, frozen := true } : Account).get_total
      = 0 := by
    simp [Account.get_total]
  have href : ∀ r : RefTxn, r.acnt_id = 1 →
      get_ref_txn_indicies c4State r = .err TxnErrors.AccountFrozen := by
    intro r hr
    cases r with
    | mk rid rc =>
      simp only [RefTxn.acnt_id] at hr
      subst hr
      rw [c4State_eq]
      simp [get_ref_txn_indicies, lookup_cons']
  have hdisp : ∀ r : RefTxn, r.acnt_id = 1 →
      process_dispute c4State r = .err c4State TxnErrors.AccountFrozen := by
    intro r hr
    simp [process_dispute, href r hr]
  have hres : ∀ r : RefTxn, r.acnt_id = 1 →
      process_resolve c4State r = .err c4State TxnErrors.AccountFrozen := by
    intro r hr
    simp [process_resolve, href r hr]
  have hcb : ∀ r : RefTxn, r.acnt_id = 1 →
      process_chargeback c4State r = .err c4State TxnErrors.AccountFrozen := by
    intro r hr
    simp [process_chargeback, href r hr]
  have hdep : ∀ p : PureTxn, p.acnt_id = 1 → c4State.txn_map.lookup p.txn_id = none →
      process_deposit c4State p = .err c4State TxnErrors.AccountFrozen := by
    intro p hp hfree
    rw [c4State_eq] at hfree
    conv_lhs => rw [c4State_eq]
    conv_rhs => rw [c4State_eq]
    simp [process_deposit, hfree, hp, lookup_cons']
  have hwd : ∀ p : PureTxn, p.acnt_id = 1 → c4State.txn_map.lookup p.txn_id = none →
      process_withdrawl c4State p = .err c4State
        (if 0 < p.amount then TxnErrors.AccountLacksFunds else TxnErrors.AccountFrozen) := by
    intro p hp hfree
    rw [c4State_eq] at hfree
    conv_lhs => rw [c4State_eq]
    conv_rhs => rw [c4State_eq]
    by_cases hp0 : (0 : Money) < p.amount
    · simp [process_withdrawl, hfree, hp, lookup_cons', hp0]
    · simp [process_withdrawl, hfree, hp, lookup_cons', hp0]
  have hdup : ∀ p : PureTxn, (c4State.txn_map.lookup p.txn_id).isSome = true →
      process_deposit c4State p = .err c4State TxnErrors.TxnIdAlreadyExists ∧
      process_withdrawl c4State p = .err c4State TxnErrors.TxnIdAlreadyExists := by
    intro p hdup
    constructor
    · simp [process_deposit, hdup]
    · simp [process_withdrawl, hdup]
  refine ⟨rfl, hacc, htot, fun r hr => ⟨hdisp r hr, hres r hr, hcb r hr⟩,
    fun p hp hfree => ⟨hdep p hp hfree, hwd p hp hfree⟩, hdup, ?_⟩
  intro t ht
  cases t with
  | Deposit p =>
    simp only [Transaction.acntId] at ht
    cases hl : (c4State.txn_map.lookup p.txn_id).isSome with
    | true => exact ⟨TxnErrors.TxnIdAlreadyExists, (hdup p hl).1⟩
    | false =>
      exact ⟨TxnErrors.AccountFrozen, hdep p ht (not_isSome_none (by simp [hl]))⟩
  | Withdrawal p =>
    simp only [Transaction.acntId] at ht
    cases hl : (c4State.txn_map.lookup p.txn_id).isSome with
    | true => exact ⟨TxnErrors.TxnIdAlreadyExists, (hdup p hl).2⟩
    | false =>
      exact ⟨if 0 < p.amount then TxnErrors.AccountLacksFunds else TxnErrors.AccountFrozen,
        hwd p ht (not_isSome_none (by simp [hl]))⟩
  | Dispute r =>
    simp only [Transaction.acntId] at ht
    exact ⟨TxnErrors.AccountFrozen, hdisp r ht⟩
  | Resolve r =>
    simp only [Transaction.acntId] at ht
    exact ⟨TxnErrors.AccountFrozen, hres r ht⟩
  | Chargeback r =>
    simp only [Transaction.acntId] at ht
    exact ⟨TxnErrors.AccountFrozen, hcb r ht⟩

/-- C4 witness: a concrete dispute against the frozen account 1 fails with
`AccountFrozen`. -/
theorem c4_witness :
    process_dispute c4State { ref_id := 1, acnt_id := 1 }
      = .err c4State TxnErrors.AccountFrozen :=
  (c4_amended_every_followup_fails.2.2.2.1 { ref_id := 1, acnt_id := 1 } rfl).1

/-! ## C8 -/

/-- C8: the truncation contract.  `get_specified_precision v d` is floor
after scaling — `⌊v * 10 ^ d⌋ / 10 ^ d` — so it never rounds up (the result
is at most `v`); in particular truncating `0.12345` to 4 digits yields
`0.1234`, not `0.1235`.  The truncation is applied exactly once, at
ingestion: `to_transaction` produces a deposit or withdrawal whose amount
is `get_specified_precision` of the raw amount at `PRECISION` digits (the
transition handlers, by their definitions, add and subtract these amounts
with no further truncation). -/
theorem c8_truncation_contract :
    (∀ (v : Money) (d : Nat),
      get_specified_precision v d = ⌊v * (10 : Money) ^ d⌋ / (10 : Money) ^ d ∧
      get_specified_precision v d ≤ v) ∧
    get_specified_precision (0.12345 : Money) 4 = (0.1234 : Money) ∧
    get_specified_precision (0.12345 : Money) 4 ≠ (0.1235 : Money) ∧
    (∀ (t : InTxn) (v : Money), t.txn_type = "deposit" → t.amount = some v →
      t.to_transaction = .ok (.Deposit
        { txn_id := t.txn_id, acnt_id := t.acnt_id,
          amount := get_specified_precision v PRECISION, disputed := false })) ∧
    (∀ (t : InTxn) (v : Money), t.txn_type = "withdrawal" → t.amount = some v →
      t.to_transaction = .ok (.Withdrawal
        { txn_id := t.txn_id, acnt_id := t.acnt_id,
          amount := get_specified_precision v PRECISION, disputed := false })) := by
  have hconc : get_specified_precision (0.12345 : Money) 4 = (0.1234 : Money) := by
    unfold get_specified_precision
    norm_num
  refine ⟨?_, hconc, ?_, ?_, ?_⟩
  · intro v d
    refine ⟨rfl, ?_⟩
    unfold get_specified_precision
    have hp : (0 : Money) < 10 ^ d := by positivity
    rw [div_le_iff₀ hp]
    exact Int.floor_le _
  · rw [hconc]
    norm_num
  · intro t v ht hv
    simp [InTxn.to_transaction, ht, hv]
  · intro t v ht hv
    simp [InTxn.to_transaction, ht, hv]

/-- C8 witness: the truncation contract applied to the concrete raw record
`deposit, client 1, tx 1, amount 0.12345`. -/
theorem c8_witness :
    InTxn.to_transaction
        { txn_type := "deposit", acnt_id := 1, txn_id := 1,
          amount := some (0.12345 : Money) }
      = .ok (.Deposit
          { txn_id := 1, acnt_id := 1,
            amount := get_specified_precision (0.12345 : Money) PRECISION,
            disputed := false }) :=
  c8_truncation_contract.2.2.2.1
    { txn_type := "deposit", acnt_id := 1, txn_id := 1, amount := some (0.12345 : Money) }
    (0.12345 : Money) rfl rfl
